import Mathlib

/-!
Formal model of the real-time media session core of the VideoConferencing
repository (src/src/hooks/useWebRTC.js and the related hook variants in
src/unnamed/part_009).  The JavaScript is embedded shallowly: global mutable
maps become explicit state records, callback registration becomes lists of
callback descriptors, getUserMedia and getDisplayMedia become environment
functions returning Except values, and every stateful operation becomes a
pure state-transformer.  Time is passed explicitly (milliseconds as Nat)
exactly where the source reads Date.now().
-/

/-!
Association-list helpers.  They model the two shapes of keyed storage the
source uses: plain string-keyed objects (SIGNALING_CHANNELS, PENDING_MESSAGES)
and ES Map objects (peerConnections).  Property assignment preserves insertion
order and overwrites in place; delete removes the key.
-/

def alLookup {κ α : Type} [DecidableEq κ] (l : List (κ × α)) (k : κ) : Option α :=
  match l with
  | [] => none
  | (k2, v) :: t => if k2 = k then some v else alLookup t k

def alInsert {κ α : Type} [DecidableEq κ] (l : List (κ × α)) (k : κ) (v : α) :
    List (κ × α) :=
  match l with
  | [] => [(k, v)]
  | (k2, v2) :: t => if k2 = k then (k, v) :: t else (k2, v2) :: alInsert t k v

def alErase {κ α : Type} [DecidableEq κ] (l : List (κ × α)) (k : κ) : List (κ × α) :=
  match l with
  | [] => []
  | (k2, v) :: t => if k2 = k then alErase t k else (k2, v) :: alErase t k

/-!
Signaling relay (useWebRTC.js lines 5-83, identical in part_009 lines 245-323).
A message carries a sender id and an optional receiver id (absent = broadcast).
A registered callback is modelled by a unique identity `cid` plus the
`senderId` property the hook assigns to the callback function; delivery is
reported as a list of (cid, delivered message) events.
-/

structure SigMsg where
  mtype : String
  senderId : String
  receiverId : Option String
deriving DecidableEq

structure QueuedMsg where
  msg : SigMsg
  timestamp : Nat
  expires : Nat
deriving DecidableEq

structure SigCallback where
  cid : Nat
  senderId : Option String
deriving DecidableEq

structure SigState where
  channels : List (String × List SigCallback)
  pending : List (String × List QueuedMsg)
deriving DecidableEq

def emptySigState : SigState := { channels := [], pending := [] }

/-- Set.add on a JavaScript Set: appends the callback unless already present. -/
def addCallback (cbs : List SigCallback) (cb : SigCallback) : List SigCallback :=
  if cb ∈ cbs then cbs else cbs ++ [cb]

/-- Predicate from sendSignal (lines 49-51): a callback receives the message
when it is not the sender and either the message is a broadcast or the
receiver id equals the callback senderId property. -/
def sigMatches (m : SigMsg) (cb : SigCallback) : Bool :=
  decide (some m.senderId ≠ cb.senderId) &&
    decide (m.receiverId = none ∨ m.receiverId = cb.senderId)

/-- Predicate from joinSignalingChannel (line 18): a queued message is flushed
to a joining callback with senderId sid when it is addressed to sid or is a
broadcast. -/
def pendingForPeer (sid : String) (q : QueuedMsg) : Bool :=
  decide (q.msg.receiverId = some sid ∨ q.msg.receiverId = none)

/-- Embedding of joinSignalingChannel (useWebRTC.js lines 9-32): registers the
callback in the room and flushes matching pending messages to it, removing the
flushed messages.  Note the source consults no clock here: the expires field of
a queued message is never read on this path. -/
def joinSignalingChannel (roomId : String) (cb : SigCallback) (s : SigState) :
    SigState × List (Nat × QueuedMsg) :=
  let cbs := (alLookup s.channels roomId).getD []
  let s1 : SigState := { s with channels := alInsert s.channels roomId (addCallback cbs cb) }
  match alLookup s.pending roomId, cb.senderId with
  | some pmsgs, some sid =>
    let forPeer := pmsgs.filter (pendingForPeer sid)
    if forPeer.isEmpty then (s1, [])
    else
      let remaining := pmsgs.filter (fun q => !pendingForPeer sid q)
      ({ s1 with pending := alInsert s1.pending roomId remaining },
        forPeer.map (fun q => (cb.cid, q)))
  | _, _ => (s1, [])

/-- Embedding of the unsubscribe closure returned by joinSignalingChannel
(useWebRTC.js lines 34-40, part_009 lines 274-281): removes the callback and,
when the registration set of the room becomes empty, deletes both the channel
entry and the whole pending-message queue of the room. -/
def unsubscribeSignaling (roomId : String) (cb : SigCallback) (s : SigState) : SigState :=
  match alLookup s.channels roomId with
  | none => s
  | some cbs =>
    let cbs2 := cbs.erase cb
    let s1 : SigState := { s with channels := alInsert s.channels roomId cbs2 }
    if cbs2.length = 0 then
      { channels := alErase s1.channels roomId, pending := alErase s1.pending roomId }
    else s1

/-- Embedding of sendSignal (useWebRTC.js lines 43-83): delivers synchronously
to every matching registered callback; if nothing was delivered and the message
names a receiver, it is queued with expires = now + 60000, after which the
queue of the room is purged of entries whose expires is not in the future. -/
def sendSignal (roomId : String) (m : SigMsg) (now : Nat) (s : SigState) :
    SigState × List (Nat × SigMsg) :=
  let cbs := (alLookup s.channels roomId).getD []
  let recipients := cbs.filter (sigMatches m)
  let events := recipients.map (fun cb => (cb.cid, m))
  if recipients.isEmpty && m.receiverId.isSome then
    let q : QueuedMsg := { msg := m, timestamp := now, expires := now + 60000 }
    let stored := ((alLookup s.pending roomId).getD []) ++ [q]
    let cleaned := stored.filter (fun qm => decide (qm.expires > now))
    ({ s with pending := alInsert s.pending roomId cleaned }, events)
  else
    (s, events)

/-!
Media Acquisition Manager (useWebRTC.js lines 109-273, the getMediaStream
fallback recursion).  A getUserMedia request is identified by the constraint
set the source passes; the browser is an environment mapping each constraint
set to a stream or to a DOMException-like error name.  The run records a
trace: one guardedCall event per invocation that passes the retry guard, and
one attempt event per getUserMedia call.  A thrown value is either the rethrown
DOMException name or a fresh Error with a message string.
-/

inductive AttemptTag where
  | basicAV
  | detailedAV
  | audioOnly
  | videoOnly
  | lowQualityAV
deriving DecidableEq

inductive ErrName where
  | notAllowed
  | permissionDenied
  | notFound
  | devicesNotFound
  | notReadable
  | trackStart
  | overconstrained
  | otherError
deriving DecidableEq

inductive MErr where
  | domErr (name : ErrName)
  | appError (msg : String)
deriving DecidableEq

inductive MEvent where
  | guardedCall (retryAttempt : Nat)
  | attempt (tag : AttemptTag)
deriving DecidableEq

def maxRetryMsg : String :=
  "Maximum retry attempts reached. Please check your device permissions."

def permissionMsg : String :=
  "Camera or microphone access was denied. Please allow access in your browser settings."

def notFoundMsg : String :=
  "No camera or microphone found. Please connect a device and try again."

def deviceBusyMsg : String :=
  "Your camera or microphone is already in use by another application."

/-- Embedding of getMediaStream (useWebRTC.js lines 109-273).  Streams are
abstract handles (Nat).  The combined branch tries basic then detailed
constraints and on a second failure returns the audio-only recursion directly;
because the source writes "return getMediaStream(...)" inside the try block,
a rejection of that recursive call bypasses the enclosing catch, which is why
the combined branch never reaches the error handler.  In the audio-only and
video-only branches the catch handler is inlined verbatim, conditions on the
mode flags included.  The browser-support check at lines 119-124 is outside
the model (the environment is the supported browser). -/
def getMediaStream (env : AttemptTag → Except ErrName Nat)
    (tryAudioOnly tryVideoOnly : Bool) (retryAttempt : Nat) :
    List MEvent × Except MErr Nat :=
  if _hguard : retryAttempt > 3 then
    ([], .error (.appError maxRetryMsg))
  else if tryAudioOnly then
    match env .audioOnly with
    | .ok s => ([.guardedCall retryAttempt, .attempt .audioOnly], .ok s)
    | .error err =>
      let pre : List MEvent := [.guardedCall retryAttempt, .attempt .audioOnly]
      if err = .notAllowed ∨ err = .permissionDenied then
        (pre, .error (.appError permissionMsg))
      else if err = .notFound ∨ err = .devicesNotFound then
        (pre, .error (.appError notFoundMsg))
      else if err = .notReadable ∨ err = .trackStart then
        if !tryAudioOnly && !tryVideoOnly then
          let r := getMediaStream env true false (retryAttempt + 1)
          (pre ++ r.1, r.2)
        else
          (pre, .error (.appError deviceBusyMsg))
      else if err = .overconstrained then
        match env .lowQualityAV with
        | .ok s => (pre ++ [.attempt .lowQualityAV], .ok s)
        | .error _ =>
          let r := getMediaStream env true false (retryAttempt + 1)
          (pre ++ [.attempt .lowQualityAV] ++ r.1, r.2)
      else
        if !tryAudioOnly && !tryVideoOnly then
          let r := getMediaStream env true false (retryAttempt + 1)
          (pre ++ r.1, r.2)
        else if tryAudioOnly then
          let r := getMediaStream env false true (retryAttempt + 1)
          (pre ++ r.1, r.2)
        else
          (pre, .error (.domErr err))
  else if tryVideoOnly then
    match env .videoOnly with
    | .ok s => ([.guardedCall retryAttempt, .attempt .videoOnly], .ok s)
    | .error err =>
      let pre : List MEvent := [.guardedCall retryAttempt, .attempt .videoOnly]
      if err = .notAllowed ∨ err = .permissionDenied then
        (pre, .error (.appError permissionMsg))
      else if err = .notFound ∨ err = .devicesNotFound then
        (pre, .error (.appError notFoundMsg))
      else if err = .notReadable ∨ err = .trackStart then
        if !tryAudioOnly && !tryVideoOnly then
          let r := getMediaStream env true false (retryAttempt + 1)
          (pre ++ r.1, r.2)
        else
          (pre, .error (.appError deviceBusyMsg))
      else if err = .overconstrained then
        match env .lowQualityAV with
        | .ok s => (pre ++ [.attempt .lowQualityAV], .ok s)
        | .error _ =>
          let r := getMediaStream env true false (retryAttempt + 1)
          (pre ++ [.attempt .lowQualityAV] ++ r.1, r.2)
      else
        if !tryAudioOnly && !tryVideoOnly then
          let r := getMediaStream env true false (retryAttempt + 1)
          (pre ++ r.1, r.2)
        else if tryAudioOnly then
          let r := getMediaStream env false true (retryAttempt + 1)
          (pre ++ r.1, r.2)
        else
          (pre, .error (.domErr err))
  else
    match env .basicAV with
    | .ok s => ([.guardedCall retryAttempt, .attempt .basicAV], .ok s)
    | .error _basicErr =>
      match env .detailedAV with
      | .ok s =>
        ([.guardedCall retryAttempt, .attempt .basicAV, .attempt .detailedAV], .ok s)
      | .error _detailedErr =>
        let r := getMediaStream env true false (retryAttempt + 1)
        ([.guardedCall retryAttempt, .attempt .basicAV, .attempt .detailedAV] ++ r.1, r.2)
termination_by 4 - retryAttempt
decreasing_by all_goals omega

/-- Number of getMediaStream invocations in a trace that passed the retry
guard and were therefore allowed to attempt acquisition. -/
def guardedCalls (evs : List MEvent) : Nat :=
  (evs.filter fun e =>
    match e with
    | .guardedCall _ => true
    | .attempt _ => false).length

/-- Error kinds that the spec classifies as DeviceBusy or OverConstrained. -/
def busyOrOverconstrained (e : ErrName) : Prop :=
  e = .notReadable ∨ e = .trackStart ∨ e = .overconstrained

/-- Environment in which every acquisition attempt fails because the device is
busy (NotReadableError). -/
def envAllBusy : AttemptTag → Except ErrName Nat := fun _ => .error .notReadable

/-!
Hook state (the useWebRTC hook).  MediaStreamTrack objects live in a store
keyed by TrackId so that the aliasing the source relies on (the same track
object reachable from several streams) is preserved; a MediaStream is a stream
id mapped to its list of track ids, mirroring addTrack and getAudioTracks.
Participants carry the fields the source stores, including the isVideoOff and
isMuted mirrors kept by the plain-JS hook.  Global signaling traffic emitted
by the operations (sendSignal calls) lives in the relay state above and does
not change hook state, so the hook-state transformers below omit it.
-/

inductive TrackKind where
  | audio
  | video
deriving DecidableEq

structure Track where
  kind : TrackKind
  enabled : Bool
  stopped : Bool
deriving DecidableEq

abbrev TrackId := Nat

abbrev StreamId := Nat

structure Participant where
  id : String
  name : String
  videoEnabled : Bool
  audioEnabled : Bool
  isScreenSharing : Bool
  isCurrentUser : Bool
  stream : Option StreamId
  isVideoOff : Bool
  isMuted : Bool
deriving DecidableEq

structure HookState where
  isMicOn : Bool
  isCameraOn : Bool
  isScreenSharing : Bool
  participants : List Participant
  localStream : Option StreamId
  screenStream : Option StreamId
  peerConnections : List (String × String)
  trackDefs : List (TrackId × Track)
  streamDefs : List (StreamId × List TrackId)
  errMsg : Option String
deriving DecidableEq

def emptyHookState : HookState :=
  { isMicOn := true, isCameraOn := true, isScreenSharing := false, participants := [],
    localStream := none, screenStream := none, peerConnections := [], trackDefs := [],
    streamDefs := [], errMsg := none }

/-- Track ids of the given stream whose track object has the given kind;
models stream.getAudioTracks() and stream.getVideoTracks(). -/
def tracksOfKind (tracks : List (TrackId × Track)) (streams : List (StreamId × List TrackId))
    (sid : StreamId) (k : TrackKind) : List TrackId :=
  ((alLookup streams sid).getD []).filter fun tid =>
    match alLookup tracks tid with
    | some t => decide (t.kind = k)
    | none => false

def getAudioTrackIds (s : HookState) (sid : StreamId) : List TrackId :=
  tracksOfKind s.trackDefs s.streamDefs sid .audio

def getVideoTrackIds (s : HookState) (sid : StreamId) : List TrackId :=
  tracksOfKind s.trackDefs s.streamDefs sid .video

/-- Mutation track.enabled = b applied to every listed track object. -/
def setEnabledOn (tracks : List (TrackId × Track)) (tids : List TrackId) (b : Bool) :
    List (TrackId × Track) :=
  tracks.map fun e => (e.1, if e.1 ∈ tids then { e.2 with enabled := b } else e.2)

/-- Mutation track.stop() applied to every listed track object. -/
def stopOn (tracks : List (TrackId × Track)) (tids : List TrackId) :
    List (TrackId × Track) :=
  tracks.map fun e => (e.1, if e.1 ∈ tids then { e.2 with stopped := true } else e.2)

/-- Combined track.enabled = false and track.stop() as done to display audio
tracks when screen sharing starts. -/
def disableAndStopOn (tracks : List (TrackId × Track)) (tids : List TrackId) :
    List (TrackId × Track) :=
  tracks.map fun e =>
    (e.1, if e.1 ∈ tids then { e.2 with enabled := false, stopped := true } else e.2)

/-- MediaStream.addTrack: appends the track to the stream unless already
present. -/
def addTrackToStream (streams : List (StreamId × List TrackId)) (sid : StreamId)
    (tid : TrackId) : List (StreamId × List TrackId) :=
  match alLookup streams sid with
  | none => streams
  | some ids => alInsert streams sid (if tid ∈ ids then ids else ids ++ [tid])

/-- Update applied to the participant entries with isCurrentUser set, exactly
the prev.map pattern every toggle in the source uses. -/
def mapCurrentUser (ps : List Participant) (f : Participant → Participant) :
    List Participant :=
  ps.map fun p => if p.isCurrentUser then f p else p

/-- Embedding of toggleMic (useWebRTC.js lines 461-490): when the local stream
exists and has audio tracks, flips every audio track to the negation of
isMicOn, stores the new flag, and mirrors it into the local participant
(audioEnabled and isMuted); otherwise does nothing.  The audio-state signal it
broadcasts lives in the relay, not in hook state. -/
def toggleMic (s : HookState) : HookState :=
  match s.localStream with
  | none => s
  | some sid =>
    let audioIds := getAudioTrackIds s sid
    if audioIds.isEmpty then s
    else
      let newState := !s.isMicOn
      { s with
        trackDefs := setEnabledOn s.trackDefs audioIds newState
        isMicOn := newState
        participants := mapCurrentUser s.participants fun p =>
          { p with audioEnabled := newState, isMuted := !newState } }

/-- Embedding of toggleCamera (useWebRTC.js lines 493-522), the video mirror
of toggleMic. -/
def toggleCamera (s : HookState) : HookState :=
  match s.localStream with
  | none => s
  | some sid =>
    let videoIds := getVideoTrackIds s sid
    if videoIds.isEmpty then s
    else
      let newState := !s.isCameraOn
      { s with
        trackDefs := setEnabledOn s.trackDefs videoIds newState
        isCameraOn := newState
        participants := mapCurrentUser s.participants fun p =>
          { p with videoEnabled := newState, isVideoOff := !newState } }

def screenShareErrMsg : String := "Could not start screen sharing. Please try again."

/-- Embedding of toggleScreenShare (useWebRTC.js lines 525-594).  The display
parameter is the outcome of getDisplayMedia: a fresh stream id with the track
objects it contains, or a failure.  Start: store the stream, disable and stop
its audio tracks, point the local participant at it, set the flag.  Stop: stop
every track of the stored display stream, restore the local participant to the
camera stream when one exists, clear the flag.  A failure lands in the catch
block, which only records the error message. -/
def toggleScreenShare (display : Except Unit (StreamId × List (TrackId × Track)))
    (s : HookState) : HookState :=
  if s.isScreenSharing then
    let s1 :=
      match s.screenStream with
      | some sid =>
        { s with
          trackDefs := stopOn s.trackDefs ((alLookup s.streamDefs sid).getD [])
          screenStream := none }
      | none => s
    let s2 :=
      match s1.localStream with
      | some camSid =>
        { s1 with
          participants := mapCurrentUser s1.participants fun p =>
            { p with isScreenSharing := false, stream := some camSid } }
      | none => s1
    { s2 with isScreenSharing := false }
  else
    match display with
    | .error _ => { s with errMsg := some screenShareErrMsg }
    | .ok (sid, newTracks) =>
      let s0 : HookState :=
        { s with
          trackDefs := s.trackDefs ++ newTracks
          streamDefs := alInsert s.streamDefs sid (newTracks.map (·.1)) }
      let s1 := { s0 with screenStream := some sid }
      let s2 := { s1 with trackDefs := disableAndStopOn s1.trackDefs (getAudioTrackIds s1 sid) }
      let s3 :=
        { s2 with
          participants := mapCurrentUser s2.participants fun p =>
            { p with isScreenSharing := true, stream := some sid } }
      { s3 with isScreenSharing := true }

/-- Embedding of removeParticipant (useWebRTC.js lines 692-703): filters the
id out of the participants list and, when a peer-connection record for it
exists, destroys the peer and deletes the record.  The function is total: no
code path raises. -/
def removeParticipant (pid : String) (s : HookState) : HookState :=
  let s1 := { s with participants := s.participants.filter fun p => decide (p.id ≠ pid) }
  match alLookup s1.peerConnections pid with
  | some _ => { s1 with peerConnections := alErase s1.peerConnections pid }
  | none => s1

/-- Embedding of the TS-variant toggleMic (useWebRTC.js lines 1193-1243).
With audio tracks present it behaves like the plain toggle (without the
isMuted mirror).  With none present and the mic off, it consumes the outcome
of getMediaStream with tryAudioOnly set: on success the first audio track of
the acquired stream is added to the existing local stream via addTrack, the
mic flag is raised and the local participant updated; on failure the catch
only logs.  Existing tracks are neither removed nor stopped. -/
def toggleMicTS (acq : Except MErr (StreamId × List (TrackId × Track)))
    (s : HookState) : HookState :=
  match s.localStream with
  | none => s
  | some sid =>
    let audioIds := getAudioTrackIds s sid
    if !audioIds.isEmpty then
      let newState := !s.isMicOn
      { s with
        trackDefs := setEnabledOn s.trackDefs audioIds newState
        isMicOn := newState
        participants := mapCurrentUser s.participants fun p =>
          { p with audioEnabled := newState } }
    else if !s.isMicOn then
      match acq with
      | .error _ => s
      | .ok (asid, newTracks) =>
        let s0 : HookState :=
          { s with
            trackDefs := s.trackDefs ++ newTracks
            streamDefs := alInsert s.streamDefs asid (newTracks.map (·.1)) }
        match (getAudioTrackIds s0 asid).head? with
        | none => s0
        | some a =>
          let s1 := { s0 with streamDefs := addTrackToStream s0.streamDefs sid a }
          { s1 with
            isMicOn := true
            participants := mapCurrentUser s1.participants fun p =>
              { p with audioEnabled := true, stream := some sid } }
    else s

/-- Embedding of the TS-variant toggleCamera (useWebRTC.js lines 1246-1296),
the video mirror of toggleMicTS. -/
def toggleCameraTS (acq : Except MErr (StreamId × List (TrackId × Track)))
    (s : HookState) : HookState :=
  match s.localStream with
  | none => s
  | some sid =>
    let videoIds := getVideoTrackIds s sid
    if !videoIds.isEmpty then
      let newState := !s.isCameraOn
      { s with
        trackDefs := setEnabledOn s.trackDefs videoIds newState
        isCameraOn := newState
        participants := mapCurrentUser s.participants fun p =>
          { p with videoEnabled := newState } }
    else if !s.isCameraOn then
      match acq with
      | .error _ => s
      | .ok (vsid, newTracks) =>
        let s0 : HookState :=
          { s with
            trackDefs := s.trackDefs ++ newTracks
            streamDefs := alInsert s.streamDefs vsid (newTracks.map (·.1)) }
        match (getVideoTrackIds s0 vsid).head? with
        | none => s0
        | some v =>
          let s1 := { s0 with streamDefs := addTrackToStream s0.streamDefs sid v }
          { s1 with
            isCameraOn := true
            participants := mapCurrentUser s1.participants fun p =>
              { p with videoEnabled := true, stream := some sid } }
    else s

/-- Embedding of the success path of initLocalStream (useWebRTC.js lines
343-380), entered once a stream sid has been acquired: applies the initial
enabled flags to its tracks, replaces the participants list with the single
local entry, and sets the device flags from the available tracks. -/
def initLocalStream (userId userName : String)
    (initialAudioEnabled initialVideoEnabled : Bool) (sid : StreamId)
    (s : HookState) : HookState :=
  let s0 : HookState := { s with localStream := some sid, errMsg := none }
  let hasVideoTracks := !(getVideoTrackIds s0 sid).isEmpty
  let hasAudioTracks := !(getAudioTrackIds s0 sid).isEmpty
  let s1 :=
    { s0 with
      trackDefs :=
        setEnabledOn (setEnabledOn s0.trackDefs (getAudioTrackIds s0 sid) initialAudioEnabled)
          (getVideoTrackIds s0 sid) initialVideoEnabled }
  { s1 with
    participants := [{
      id := userId
      name := userName
      videoEnabled := hasVideoTracks && initialVideoEnabled
      audioEnabled := hasAudioTracks && initialAudioEnabled
      isScreenSharing := false
      isCurrentUser := true
      stream := some sid
      isVideoOff := !(hasVideoTracks && initialVideoEnabled)
      isMuted := !(hasAudioTracks && initialAudioEnabled) }]
    isCameraOn := hasVideoTracks && initialVideoEnabled
    isMicOn := hasAudioTracks && initialAudioEnabled }

/-- Embedding of the peer "stream" handler (useWebRTC.js lines 1512-1548,
part_009 lines 1346-1382): updates the existing participant with the remote
stream or appends a fresh remote entry. -/
def peerStreamHandler (peerId : String) (remoteSid : StreamId) (s : HookState) :
    HookState :=
  { s with
    participants :=
      if s.participants.any fun p => p.id == peerId then
        s.participants.map fun p =>
          if p.id = peerId then
            { p with stream := some remoteSid, videoEnabled := true, audioEnabled := true }
          else p
      else
        s.participants ++ [{
          id := peerId
          name := "Peer " ++ peerId.take 5
          videoEnabled := true
          audioEnabled := true
          isScreenSharing := false
          isCurrentUser := false
          stream := some remoteSid
          isVideoOff := false
          isMuted := false }] }

/-- Embedding of the peer "close" handler (useWebRTC.js lines 1551-1555):
deletes the connection record and filters the participant out. -/
def peerCloseHandler (peerId : String) (s : HookState) : HookState :=
  { s with
    peerConnections := alErase s.peerConnections peerId
    participants := s.participants.filter fun p => decide (p.id ≠ peerId) }

/-- Embedding of the peer "error" handler (part_009 lines 1392-1397, identical
in useWebRTC.js lines 1558-1563): deletes the connection record and filters
the participant out; no reconnection is initiated. -/
def peerErrorHandler (peerId : String) (s : HookState) : HookState :=
  { s with
    peerConnections := alErase s.peerConnections peerId
    participants := s.participants.filter fun p => decide (p.id ≠ peerId) }

/-- Signal messages handled by the participant-signal listener of the enhanced
hook (part_009 lines 1449-1503). -/
inductive HookSignal where
  | removeParticipantMsg (senderId removedId : String)
  | audioState (senderId : String) (enabled : Bool)
  | videoState (senderId : String) (enabled : Bool)
  | screenShareState (senderId : String) (sharing : Bool)
  | nameUpdate (senderId newName : String)
  | ping (senderId : String)
deriving DecidableEq

/-- Embedding of handleSignals (part_009 lines 1449-1503): a removal naming
this client destroys and clears every peer connection; state-change messages
patch the matching participant entry; ping only answers with a pong through
the relay. -/
def handleSignals (userId : String) (m : HookSignal) (s : HookState) : HookState :=
  match m with
  | .removeParticipantMsg _ removedId =>
    if removedId = userId then { s with peerConnections := [] } else s
  | .audioState senderId b =>
    { s with participants := s.participants.map fun p =>
        if p.id = senderId then { p with audioEnabled := b } else p }
  | .videoState senderId b =>
    { s with participants := s.participants.map fun p =>
        if p.id = senderId then { p with videoEnabled := b } else p }
  | .screenShareState senderId b =>
    { s with participants := s.participants.map fun p =>
        if p.id = senderId then { p with isScreenSharing := b } else p }
  | .nameUpdate senderId n =>
    { s with participants := s.participants.map fun p =>
        if p.id = senderId then { p with name := n } else p }
  | .ping _ => s

/-- Exposed operations and incoming events of the hook, as one step alphabet. -/
inductive HookOp where
  | opToggleMic
  | opToggleCamera
  | opToggleScreenShare (display : Except Unit (StreamId × List (TrackId × Track)))
  | opRemoveParticipant (pid : String)
  | opPeerStream (pid : String) (remoteSid : StreamId)
  | opPeerClose (pid : String)
  | opPeerError (pid : String)
  | opSignal (m : HookSignal)

def hookStep (userId : String) (op : HookOp) (s : HookState) : HookState :=
  match op with
  | .opToggleMic => toggleMic s
  | .opToggleCamera => toggleCamera s
  | .opToggleScreenShare d => toggleScreenShare d s
  | .opRemoveParticipant pid => removeParticipant pid s
  | .opPeerStream pid sid => peerStreamHandler pid sid s
  | .opPeerClose pid => peerCloseHandler pid s
  | .opPeerError pid => peerErrorHandler pid s
  | .opSignal m => handleSignals userId m s

/-- Removal-type operations aimed at the local participant id: calling
removeParticipant with the own id, or a peer close or error event keyed by it
(the source only ever attaches peer handlers to remote ids). -/
def opTargetsLocal (userId : String) (op : HookOp) : Bool :=
  match op with
  | .opRemoveParticipant pid => pid == userId
  | .opPeerClose pid => pid == userId
  | .opPeerError pid => pid == userId
  | _ => false

/-- Number of participant entries flagged as the current user. -/
def localCount (ps : List Participant) : Nat :=
  (ps.filter fun p => p.isCurrentUser).length

/-- Registry invariant: exactly one current-user entry, and it carries the
local user id. -/
def goodLocalList (userId : String) (ps : List Participant) : Prop :=
  localCount ps = 1 ∧ ∀ p ∈ ps, p.isCurrentUser = true → p.id = userId

/-- Local participant entry used in concrete scenario states. -/
def aliceLocal : Participant :=
  { id := "alice"
    name := "Alice"
    videoEnabled := true
    audioEnabled := true
    isScreenSharing := false
    isCurrentUser := true
    stream := some 0
    isVideoOff := false
    isMuted := false }

/-- Concrete state with one local participant and one remote connection. -/
def aliceWithBobState : HookState :=
  { emptyHookState with participants := [aliceLocal], peerConnections := [("bob", "bob")] }

/-- Concrete state with two remote peer-connection records. -/
def twoPeerState : HookState :=
  { emptyHookState with peerConnections := [("p1", "p1"), ("p2", "p2")] }

/-- Concrete state whose single audio track has enabled = false while the
hook flag isMicOn is true (the track flag and the hook flag disagree). -/
def desyncedMicState : HookState :=
  { emptyHookState with
    isMicOn := true
    localStream := some 0
    streamDefs := [(0, [0])]
    trackDefs := [(0, { kind := .audio, enabled := false, stopped := false })]
    participants := [aliceLocal] }

/-- Concrete state like desyncedMicState but with the audio track flag in
agreement with isMicOn, as initialization leaves it. -/
def syncedMicState : HookState :=
  { emptyHookState with
    isMicOn := true
    localStream := some 0
    streamDefs := [(0, [0])]
    trackDefs := [(0, { kind := .audio, enabled := true, stopped := false })]
    participants := [aliceLocal] }

/-- Concrete state after a fallback to video-only capture: the local stream
exists, holds one video track and no audio track, and the mic is off. -/
def videoOnlyState : HookState :=
  { emptyHookState with
    isMicOn := false
    localStream := some 0
    streamDefs := [(0, [1])]
    trackDefs := [(1, { kind := .video, enabled := true, stopped := false })]
    participants := [aliceLocal] }

/-- Directed message from sender A to receiver B used in concrete scenarios. -/
def msgAtoB : SigMsg := { mtype := "signal", senderId := "A", receiverId := some "B" }

/-- Callback that client B registers for itself. -/
def receiverCbB : SigCallback := { cid := 1, senderId := some "B" }

/-- Callback of a bystander client C in the same room. -/
def bystanderCbC : SigCallback := { cid := 2, senderId := some "C" }

/-!
General lemmas about the association-list helpers.
-/

theorem alLookup_alErase_self {κ α : Type} [DecidableEq κ] (l : List (κ × α)) (k : κ) :
    alLookup (alErase l k) k = none := by
  induction l with
  | nil => rfl
  | cons e t ih =>
    obtain ⟨k2, v⟩ := e
    by_cases h : k2 = k
    · simpa [alErase, h] using ih
    · simp [alErase, alLookup, h, ih]

theorem alLookup_alErase_ne {κ α : Type} [DecidableEq κ] (l : List (κ × α)) (k q : κ)
    (h : q ≠ k) : alLookup (alErase l k) q = alLookup l q := by
  induction l with
  | nil => rfl
  | cons e t ih =>
    obtain ⟨k2, v⟩ := e
    by_cases h2 : k2 = k
    · subst h2
      have h4 : k2 ≠ q := fun hc => h hc.symm
      simp [alErase, alLookup, h4, ih]
    · simp only [alErase, if_neg h2]
      by_cases h3 : k2 = q
      · simp [alLookup, h3]
      · simp [alLookup, h3, ih]

theorem mem_of_mem_alErase {κ α : Type} [DecidableEq κ] {l : List (κ × α)} {k : κ}
    {c : κ × α} (h : c ∈ alErase l k) : c ∈ l := by
  induction l with
  | nil => simp [alErase] at h
  | cons e t ih =>
    obtain ⟨k2, v⟩ := e
    by_cases h2 : k2 = k
    · rw [alErase, if_pos h2] at h
      exact List.mem_cons_of_mem _ (ih h)
    · rw [alErase, if_neg h2] at h
      rcases List.mem_cons.mp h with h3 | h3
      · simp [h3]
      · exact List.mem_cons_of_mem _ (ih h3)

/-!
Claim C1.  The spec demands that a directed message queued before its receiver
registers is delivered exactly once when the receiver registers within 60
seconds, and zero times when the receiver registers later.  The source
comments promise the same 60-second TTL, but joinSignalingChannel reads no
clock and never consults the expires field of a queued message: its delivery
of pending messages is independent of the registration time, so the message
is delivered once even when the receiver registers after the TTL.
-/

/-- C1: sending A-to-B into an empty room queues the message with expires =
60000; a later registration of B flushes it to the callback of B exactly once,
and since joinSignalingChannel takes no clock the same single delivery happens
at any registration time, in particular one later than 60 seconds, where the
claim requires zero deliveries. -/
theorem c1_expired_directed_message_still_delivered :
    (joinSignalingChannel "room1" receiverCbB
        (sendSignal "room1" msgAtoB 0 emptySigState).1).2 =
      [(1, { msg := msgAtoB, timestamp := 0, expires := 60000 })] := by
  decide

/-!
Claim C10.  When the last registered callback of a room unsubscribes, the
whole pending queue of the room is deleted, so a queued directed message can
be lost before its TTL elapses if the room empties between send and the
receiver joining.
-/

/-- C10: if cb is the only callback registered in a room, its unsubscribe
deletes the pending queue of the room; consequently, in the concrete scenario
where A sends a directed message to B while only bystander C is registered,
C then unsubscribes and B joins (well before the 60-second TTL), B receives
nothing. -/
theorem c10_last_unsubscribe_deletes_pending_queue :
    (∀ (s : SigState) (roomId : String) (cb : SigCallback),
        alLookup s.channels roomId = some [cb] →
        alLookup (unsubscribeSignaling roomId cb s).pending roomId = none) ∧
    (joinSignalingChannel "room1" receiverCbB
        (unsubscribeSignaling "room1" bystanderCbC
          (sendSignal "room1" msgAtoB 0
            (joinSignalingChannel "room1" bystanderCbC emptySigState).1).1)).2 = [] := by
  constructor
  · intro s roomId cb h
    unfold unsubscribeSignaling
    rw [h]
    simp only [List.erase_cons_head, List.length_nil, if_pos rfl]
    exact alLookup_alErase_self _ _
  · decide

/-- Witness for C10 at a concrete state: one registered callback, one queued
message; unsubscribing deletes the queue. -/
theorem c10_last_unsubscribe_deletes_pending_queue_witness :
    alLookup (unsubscribeSignaling "room1" bystanderCbC
      { channels := [("room1", [bystanderCbC])],
        pending := [("room1", [{ msg := msgAtoB, timestamp := 0, expires := 60000 }])] }).pending
      "room1" = none :=
  c10_last_unsubscribe_deletes_pending_queue.1 _ "room1" bystanderCbC rfl

/-!
Claim C6.  removeParticipant with an id that is neither in the participants
list nor in the peer-connection map changes nothing and cannot raise: the
embedding is a total function and the source path has no throw.
-/

/-- C6: removing an absent participant id is a no-op on the whole hook state. -/
theorem c6_remove_absent_id_noop (s : HookState) (pid : String)
    (h1 : ∀ p ∈ s.participants, p.id ≠ pid)
    (h2 : alLookup s.peerConnections pid = none) :
    removeParticipant pid s = s := by
  have hfilter : (s.participants.filter fun p => !decide (p.id = pid)) = s.participants :=
    List.filter_eq_self.mpr fun p hp => by simpa using h1 p hp
  simp [removeParticipant, hfilter, h2]

/-- Witness for C6 at a concrete state holding one other participant and one
other connection. -/
theorem c6_remove_absent_id_noop_witness :
    removeParticipant "ghost" aliceWithBobState = aliceWithBobState :=
  c6_remove_absent_id_noop _ "ghost" (by decide) (by decide)

/-!
Claim C8.  The peer error handler deletes exactly the connection record and
the participant entry of the failing peer, keeps everything else, and adds no
connection: there is no createPeer call on this path (no re-negotiation).
-/

/-- C8: after a peer error event for pid, the connection record of pid is
gone, every other connection key resolves as before, no participant with id
pid remains, every other participant entry survives unchanged, and the
connection map gained nothing. -/
theorem c8_peer_error_cleanup (s : HookState) (pid : String) :
    alLookup (peerErrorHandler pid s).peerConnections pid = none ∧
    (∀ q, q ≠ pid → alLookup (peerErrorHandler pid s).peerConnections q =
        alLookup s.peerConnections q) ∧
    (∀ p ∈ (peerErrorHandler pid s).participants, p.id ≠ pid) ∧
    (∀ p ∈ s.participants, p.id ≠ pid → p ∈ (peerErrorHandler pid s).participants) ∧
    (∀ p ∈ (peerErrorHandler pid s).participants, p ∈ s.participants) ∧
    (∀ c ∈ (peerErrorHandler pid s).peerConnections, c ∈ s.peerConnections) := by
  refine ⟨alLookup_alErase_self _ _, fun q hq => alLookup_alErase_ne _ _ _ hq, ?_, ?_, ?_, ?_⟩
  · intro p hp
    have := (List.mem_filter.mp hp).2
    simpa using this
  · intro p hp hne
    exact List.mem_filter.mpr ⟨hp, by simpa using hne⟩
  · intro p hp
    exact (List.mem_filter.mp hp).1
  · intro c hc
    exact mem_of_mem_alErase hc

/-- Witness for C8 at a concrete state with two peers: after an error from p1,
the record of p2 still resolves. -/
theorem c8_peer_error_cleanup_witness :
    alLookup (peerErrorHandler "p1" twoPeerState).peerConnections "p2" =
      alLookup twoPeerState.peerConnections "p2" :=
  (c8_peer_error_cleanup twoPeerState "p1").2.1 "p2" (by decide)

/-!
Lemmas about track-store updates.
-/

theorem alLookup_setEnabledOn (tracks : List (TrackId × Track)) (tids : List TrackId)
    (b : Bool) (tid : TrackId) :
    alLookup (setEnabledOn tracks tids b) tid =
      (alLookup tracks tid).map fun t =>
        if tid ∈ tids then { t with enabled := b } else t := by
  induction tracks with
  | nil => rfl
  | cons e t ih =>
    obtain ⟨i, tr⟩ := e
    by_cases h : i = tid
    · subst h
      by_cases h2 : i ∈ tids <;> simp [setEnabledOn, alLookup, h2]
    · by_cases h2 : i ∈ tids <;>
        simpa [setEnabledOn, alLookup, h, h2] using ih

theorem tracksOfKind_setEnabledOn (tracks : List (TrackId × Track))
    (streams : List (StreamId × List TrackId)) (sid : StreamId) (k : TrackKind)
    (tids : List TrackId) (b : Bool) :
    tracksOfKind (setEnabledOn tracks tids b) streams sid k =
      tracksOfKind tracks streams sid k := by
  unfold tracksOfKind
  apply List.filter_congr
  intro tid _
  rw [alLookup_setEnabledOn]
  cases h : alLookup tracks tid with
  | none => rfl
  | some t => by_cases h2 : tid ∈ tids <;> simp [h2]

/-- Unfolding of toggleMic on a state whose local stream exists and has audio
tracks. -/
theorem toggleMic_eq (s : HookState) (sid : StreamId) (h1 : s.localStream = some sid)
    (h2 : getAudioTrackIds s sid ≠ []) :
    toggleMic s =
      { s with
        trackDefs := setEnabledOn s.trackDefs (getAudioTrackIds s sid) (!s.isMicOn)
        isMicOn := !s.isMicOn
        participants := mapCurrentUser s.participants fun p =>
          { p with audioEnabled := !s.isMicOn, isMuted := !(!s.isMicOn) } } := by
  have h3 : (getAudioTrackIds s sid).isEmpty = false := by
    cases hA : getAudioTrackIds s sid with
    | nil => exact absurd hA h2
    | cons a t => rfl
  unfold toggleMic
  rw [h1]
  simp only [getAudioTrackIds] at h3
  simp [h3, getAudioTrackIds]

/-!
Claim C3.  The double toggleMic round trip.  The claim quantifies over every
state with an audio track, but toggleMic does not restore the previous track
flags: it writes the negation of isMicOn and then isMicOn itself, so a state
whose track flag disagrees with isMicOn ends with the flag changed.  On states
where the track flags and the local participant flag agree with isMicOn (the
initialization code establishes exactly this and every toggle preserves it)
the round trip does restore everything the claim lists.
-/

/-- C3 counterexample: in the concrete state whose audio track has enabled =
false while isMicOn = true, two toggleMic calls leave the track with enabled =
true, not its original value. -/
theorem c3_counterexample_track_flag_flipped :
    alLookup desyncedMicState.trackDefs 0 =
        some { kind := .audio, enabled := false, stopped := false } ∧
    alLookup (toggleMic (toggleMic desyncedMicState)).trackDefs 0 =
        some { kind := .audio, enabled := true, stopped := false } := by
  decide

/-- C3 as amended: when every audio track flag and the local participant
audioEnabled flag agree with isMicOn before the first call, two toggleMic
calls restore isMicOn, every audio track enabled flag, and the audioEnabled
column of the participants list. -/
theorem c3_amended_mic_double_toggle (s : HookState) (sid : StreamId)
    (h1 : s.localStream = some sid)
    (h2 : getAudioTrackIds s sid ≠ [])
    (h3 : ∀ tid ∈ getAudioTrackIds s sid,
      (alLookup s.trackDefs tid).map Track.enabled = some s.isMicOn)
    (h4 : ∀ p ∈ s.participants, p.isCurrentUser = true → p.audioEnabled = s.isMicOn) :
    (toggleMic (toggleMic s)).isMicOn = s.isMicOn ∧
    (∀ tid ∈ getAudioTrackIds s sid,
      (alLookup (toggleMic (toggleMic s)).trackDefs tid).map Track.enabled =
        (alLookup s.trackDefs tid).map Track.enabled) ∧
    ((toggleMic (toggleMic s)).participants.map fun p => p.audioEnabled) =
      (s.participants.map fun p => p.audioEnabled) := by
  have e1 := toggleMic_eq s sid h1 h2
  have hs1stream : (toggleMic s).localStream = some sid := by rw [e1]; exact h1
  have hs1mic : (toggleMic s).isMicOn = !s.isMicOn := by rw [e1]
  have hAud : getAudioTrackIds (toggleMic s) sid = getAudioTrackIds s sid := by
    rw [e1]
    unfold getAudioTrackIds
    exact tracksOfKind_setEnabledOn s.trackDefs s.streamDefs sid .audio _ _
  have h2b : getAudioTrackIds (toggleMic s) sid ≠ [] := by rw [hAud]; exact h2
  have e2 := toggleMic_eq (toggleMic s) sid hs1stream h2b
  refine ⟨?_, ?_, ?_⟩
  · rw [e2]
    simp [hs1mic]
  · intro tid htid
    obtain ⟨t, ht, hen⟩ : ∃ t, alLookup s.trackDefs tid = some t ∧ t.enabled = s.isMicOn := by
      have := h3 tid htid
      cases hl : alLookup s.trackDefs tid with
      | none => rw [hl] at this; simp at this
      | some t =>
        rw [hl] at this
        exact ⟨t, rfl, by simpa using this⟩
    rw [e2]
    show (alLookup (setEnabledOn (toggleMic s).trackDefs
        (getAudioTrackIds (toggleMic s) sid) (!(toggleMic s).isMicOn)) tid).map Track.enabled = _
    rw [hAud, hs1mic, e1]
    show (alLookup (setEnabledOn (setEnabledOn s.trackDefs
        (getAudioTrackIds s sid) (!s.isMicOn)) (getAudioTrackIds s sid) (!!s.isMicOn)) tid).map
        Track.enabled = _
    rw [alLookup_setEnabledOn, alLookup_setEnabledOn, ht]
    simp [htid, hen]
  · rw [e2]
    show (mapCurrentUser (toggleMic s).participants fun p =>
        { p with audioEnabled := !(toggleMic s).isMicOn,
                 isMuted := !(!(toggleMic s).isMicOn) }).map (fun p => p.audioEnabled) = _
    rw [hs1mic, e1]
    show (mapCurrentUser (mapCurrentUser s.participants fun p =>
        { p with audioEnabled := !s.isMicOn, isMuted := !(!s.isMicOn) }) fun p =>
        { p with audioEnabled := !!s.isMicOn, isMuted := !(!!s.isMicOn) }).map
        (fun p => p.audioEnabled) = _
    unfold mapCurrentUser
    rw [List.map_map, List.map_map]
    apply List.map_congr_left
    intro p hp
    by_cases hc : p.isCurrentUser = true
    · simp [hc, h4 p hp hc]
    · simp [hc]

/-- Witness for the amended C3 at a concrete synced state. -/
theorem c3_amended_mic_double_toggle_witness :
    (toggleMic (toggleMic syncedMicState)).isMicOn = syncedMicState.isMicOn :=
  (c3_amended_mic_double_toggle syncedMicState 0 rfl (by decide) (by decide) (by decide)).1

/-!
Further store lemmas, used for the screen-share round trip.
-/

theorem alLookup_alInsert_self {κ α : Type} [DecidableEq κ] (l : List (κ × α)) (k : κ)
    (v : α) : alLookup (alInsert l k v) k = some v := by
  induction l with
  | nil => simp [alInsert, alLookup]
  | cons e t ih =>
    obtain ⟨k2, v2⟩ := e
    by_cases h : k2 = k
    · simp [alInsert, alLookup, h]
    · simp [alInsert, alLookup, h, ih]

theorem alLookup_isSome_of_mem_keys {κ α : Type} [DecidableEq κ] (l : List (κ × α))
    (k : κ) (h : k ∈ l.map Prod.fst) : ∃ v, alLookup l k = some v := by
  induction l with
  | nil => simp at h
  | cons e t ih =>
    obtain ⟨k2, v2⟩ := e
    by_cases h2 : k2 = k
    · exact ⟨v2, by simp [alLookup, h2]⟩
    · have : k ∈ t.map Prod.fst := by
        rcases List.mem_map.mp h with ⟨c, hc, hck⟩
        rcases List.mem_cons.mp hc with h3 | h3
        · exact absurd (by rw [h3] at hck; exact hck) h2
        · exact List.mem_map.mpr ⟨c, h3, hck⟩
      obtain ⟨v, hv⟩ := ih this
      exact ⟨v, by simp [alLookup, h2, hv]⟩

theorem alLookup_stopOn (tracks : List (TrackId × Track)) (tids : List TrackId)
    (tid : TrackId) :
    alLookup (stopOn tracks tids) tid =
      (alLookup tracks tid).map fun t =>
        if tid ∈ tids then { t with stopped := true } else t := by
  induction tracks with
  | nil => rfl
  | cons e t ih =>
    obtain ⟨i, tr⟩ := e
    by_cases h : i = tid
    · subst h
      by_cases h2 : i ∈ tids <;> simp [stopOn, alLookup, h2]
    · by_cases h2 : i ∈ tids <;>
        simpa [stopOn, alLookup, h, h2] using ih

theorem alLookup_disableAndStopOn (tracks : List (TrackId × Track)) (tids : List TrackId)
    (tid : TrackId) :
    alLookup (disableAndStopOn tracks tids) tid =
      (alLookup tracks tid).map fun t =>
        if tid ∈ tids then { t with enabled := false, stopped := true } else t := by
  induction tracks with
  | nil => rfl
  | cons e t ih =>
    obtain ⟨i, tr⟩ := e
    by_cases h : i = tid
    · subst h
      by_cases h2 : i ∈ tids <;> simp [disableAndStopOn, alLookup, h2]
    · by_cases h2 : i ∈ tids <;>
        simpa [disableAndStopOn, alLookup, h, h2] using ih

theorem mem_mapCurrentUser (ps : List Participant) (f : Participant → Participant)
    (p : Participant) (hp : p ∈ mapCurrentUser ps f) :
    (∃ q ∈ ps, q.isCurrentUser = true ∧ p = f q) ∨
      (p ∈ ps ∧ p.isCurrentUser = false) := by
  unfold mapCurrentUser at hp
  obtain ⟨q, hq, hpq⟩ := List.mem_map.mp hp
  by_cases hc : q.isCurrentUser = true
  · exact Or.inl ⟨q, hq, hc, by rw [← hpq, if_pos hc]⟩
  · right
    rw [if_neg hc] at hpq
    subst hpq
    simp only [Bool.not_eq_true] at hc
    exact ⟨hq, hc⟩

/-- Unfolding of toggleScreenShare on start: the flag is down and display
acquisition succeeds. -/
theorem toggleScreenShare_start_eq (s : HookState) (sid : StreamId)
    (newTracks : List (TrackId × Track)) (h1 : s.isScreenSharing = false) :
    toggleScreenShare (.ok (sid, newTracks)) s =
      { s with
        trackDefs := disableAndStopOn (s.trackDefs ++ newTracks)
          (tracksOfKind (s.trackDefs ++ newTracks)
            (alInsert s.streamDefs sid (newTracks.map (·.1))) sid .audio)
        streamDefs := alInsert s.streamDefs sid (newTracks.map (·.1))
        screenStream := some sid
        participants := mapCurrentUser s.participants fun p =>
          { p with isScreenSharing := true, stream := some sid }
        isScreenSharing := true } := by
  unfold toggleScreenShare
  rw [h1]
  rfl

/-- Unfolding of toggleScreenShare on stop: the flag is up, a display stream
is stored and a camera stream exists; the display argument is not consulted on
this path. -/
theorem toggleScreenShare_stop_eq (s : HookState) (sid cam : StreamId)
    (d : Except Unit (StreamId × List (TrackId × Track)))
    (h1 : s.isScreenSharing = true) (h2 : s.screenStream = some sid)
    (h3 : s.localStream = some cam) :
    toggleScreenShare d s =
      { s with
        trackDefs := stopOn s.trackDefs ((alLookup s.streamDefs sid).getD [])
        screenStream := none
        participants := mapCurrentUser s.participants fun p =>
          { p with isScreenSharing := false, stream := some cam }
        isScreenSharing := false } := by
  obtain ⟨mic, camOn, ss, ps, ls, scr, pc, td, sd, em⟩ := s
  dsimp only at h1 h2 h3
  subst h1 h2 h3
  rfl

/-!
Claim C7.  Starting and then stopping screen share from a state with an
active camera stream clears the flag on hook state and local participant,
restores the camera stream handle on the local participant, and stops every
track of the display-capture stream (its audio tracks are already disabled
and stopped at start, its remaining tracks at stop).
-/

/-- C7: the screen-share round trip restores isScreenSharing = false on the
hook and on the local participant, restores the local participant stream to
the camera stream, and leaves every display-capture track stopped. -/
theorem c7_screen_share_round_trip (s : HookState) (cam sid : StreamId)
    (newTracks : List (TrackId × Track))
    (h1 : s.isScreenSharing = false) (h2 : s.localStream = some cam) :
    (toggleScreenShare (.ok (sid, newTracks))
        (toggleScreenShare (.ok (sid, newTracks)) s)).isScreenSharing = false ∧
    (∀ p ∈ (toggleScreenShare (.ok (sid, newTracks))
        (toggleScreenShare (.ok (sid, newTracks)) s)).participants,
      p.isCurrentUser = true → p.isScreenSharing = false ∧ p.stream = some cam) ∧
    (∀ tid ∈ newTracks.map (·.1), ∃ t,
      alLookup (toggleScreenShare (.ok (sid, newTracks))
        (toggleScreenShare (.ok (sid, newTracks)) s)).trackDefs tid = some t ∧
        t.stopped = true) := by
  have e1 := toggleScreenShare_start_eq s sid newTracks h1
  have hss : (toggleScreenShare (.ok (sid, newTracks)) s).isScreenSharing = true := by
    rw [e1]
  have hscr : (toggleScreenShare (.ok (sid, newTracks)) s).screenStream = some sid := by
    rw [e1]
  have hls : (toggleScreenShare (.ok (sid, newTracks)) s).localStream = some cam := by
    rw [e1]; exact h2
  have e2 := toggleScreenShare_stop_eq (toggleScreenShare (.ok (sid, newTracks)) s) sid cam
    (.ok (sid, newTracks)) hss hscr hls
  refine ⟨?_, ?_, ?_⟩
  · rw [e2]
  · intro p hp hcur
    rw [e2] at hp
    dsimp only at hp
    rcases mem_mapCurrentUser _ _ p hp with ⟨q, _, _, hpq⟩ | ⟨_, hpc⟩
    · subst hpq
      exact ⟨rfl, rfl⟩
    · rw [hcur] at hpc
      exact absurd hpc (by simp)
  · intro tid htid
    have hsd : (toggleScreenShare (.ok (sid, newTracks)) s).streamDefs =
        alInsert s.streamDefs sid (newTracks.map (·.1)) := by rw [e1]
    rw [e2]
    dsimp only
    rw [hsd, alLookup_alInsert_self]
    rw [show (toggleScreenShare (.ok (sid, newTracks)) s).trackDefs =
      disableAndStopOn (s.trackDefs ++ newTracks)
        (tracksOfKind (s.trackDefs ++ newTracks)
          (alInsert s.streamDefs sid (newTracks.map (·.1))) sid .audio) from by rw [e1]]
    rw [alLookup_stopOn, alLookup_disableAndStopOn]
    have hmem : tid ∈ (s.trackDefs ++ newTracks).map Prod.fst := by
      rw [List.map_append]
      exact List.mem_append_right _ htid
    obtain ⟨u, hu⟩ := alLookup_isSome_of_mem_keys _ tid hmem
    rw [hu]
    simp [htid]

/-- Witness for C7 at a concrete camera-session state and a one-track display
stream. -/
theorem c7_screen_share_round_trip_witness :
    (toggleScreenShare (.ok (7, [(5, { kind := .video, enabled := true, stopped := false })]))
        (toggleScreenShare (.ok (7, [(5, { kind := .video, enabled := true, stopped := false })]))
          syncedMicState)).isScreenSharing = false :=
  (c7_screen_share_round_trip syncedMicState 0 7
    [(5, { kind := .video, enabled := true, stopped := false })] rfl rfl).1

/-!
Lemmas for the track-adding toggles.
-/

theorem alLookup_alInsert_ne {κ α : Type} [DecidableEq κ] (l : List (κ × α)) (k q : κ)
    (v : α) (h : k ≠ q) : alLookup (alInsert l k v) q = alLookup l q := by
  induction l with
  | nil => simp [alInsert, alLookup, h]
  | cons e t ih =>
    obtain ⟨k2, v2⟩ := e
    by_cases h2 : k2 = k
    · subst h2
      simp [alInsert, alLookup, h]
    · by_cases h3 : k2 = q
      · subst h3
        have h5 : ¬(k2 = k) := h2
        simp [alInsert, alLookup, h5]
      · simp [alInsert, alLookup, h2, h3, ih]

theorem alLookup_append_of_left_none {κ α : Type} [DecidableEq κ]
    (l1 l2 : List (κ × α)) (k : κ) (h : alLookup l1 k = none) :
    alLookup (l1 ++ l2) k = alLookup l2 k := by
  induction l1 with
  | nil => rfl
  | cons e t ih =>
    obtain ⟨k2, v2⟩ := e
    by_cases h2 : k2 = k
    · rw [alLookup, if_pos h2] at h
      exact absurd h (by simp)
    · rw [alLookup, if_neg h2] at h
      rw [List.cons_append, alLookup, if_neg h2]
      exact ih h

theorem alLookup_append_of_right_none {κ α : Type} [DecidableEq κ]
    (l1 l2 : List (κ × α)) (k : κ) (h : alLookup l2 k = none) :
    alLookup (l1 ++ l2) k = alLookup l1 k := by
  induction l1 with
  | nil => simpa using h
  | cons e t ih =>
    obtain ⟨k2, v2⟩ := e
    by_cases h2 : k2 = k
    · rw [List.cons_append, alLookup, if_pos h2, alLookup, if_pos h2]
    · rw [List.cons_append, alLookup, if_neg h2, alLookup, if_neg h2]
      exact ih

/-- Unfolding of the TS toggleMic add branch: local stream exists, has no
audio track, the mic is off, and the audio-only acquisition returned a fresh
single-audio-track stream. -/
theorem toggleMicTS_add_eq (s : HookState) (sid asid : StreamId) (a : TrackId)
    (atr : Track)
    (h1 : s.localStream = some sid)
    (h2 : getAudioTrackIds s sid = [])
    (h3 : s.isMicOn = false)
    (h4 : atr.kind = TrackKind.audio)
    (h5 : alLookup s.trackDefs a = none) :
    toggleMicTS (.ok (asid, [(a, atr)])) s =
      { s with
        trackDefs := s.trackDefs ++ [(a, atr)]
        streamDefs := addTrackToStream (alInsert s.streamDefs asid [a]) sid a
        isMicOn := true
        participants := mapCurrentUser s.participants fun p =>
          { p with audioEnabled := true, stream := some sid } } := by
  have htrk : alLookup (s.trackDefs ++ [(a, atr)]) a = some atr := by
    rw [alLookup_append_of_left_none _ _ _ h5]
    simp [alLookup]
  have hhead : getAudioTrackIds
      { s with isMicOn := false, localStream := some sid,
               trackDefs := s.trackDefs ++ [(a, atr)],
               streamDefs := alInsert s.streamDefs asid [a] } asid = [a] := by
    unfold getAudioTrackIds tracksOfKind
    dsimp only
    rw [alLookup_alInsert_self]
    simp [htrk, h4]
  simp [toggleMicTS, h1, h2, h3, hhead]

/-- Unfolding of the TS toggleCamera add branch, the video mirror. -/
theorem toggleCameraTS_add_eq (s : HookState) (sid vsid : StreamId) (v : TrackId)
    (vtr : Track)
    (h1 : s.localStream = some sid)
    (h2 : getVideoTrackIds s sid = [])
    (h3 : s.isCameraOn = false)
    (h4 : vtr.kind = TrackKind.video)
    (h5 : alLookup s.trackDefs v = none) :
    toggleCameraTS (.ok (vsid, [(v, vtr)])) s =
      { s with
        trackDefs := s.trackDefs ++ [(v, vtr)]
        streamDefs := addTrackToStream (alInsert s.streamDefs vsid [v]) sid v
        isCameraOn := true
        participants := mapCurrentUser s.participants fun p =>
          { p with videoEnabled := true, stream := some sid } } := by
  have htrk : alLookup (s.trackDefs ++ [(v, vtr)]) v = some vtr := by
    rw [alLookup_append_of_left_none _ _ _ h5]
    simp [alLookup]
  have hhead : getVideoTrackIds
      { s with isCameraOn := false, localStream := some sid,
               trackDefs := s.trackDefs ++ [(v, vtr)],
               streamDefs := alInsert s.streamDefs vsid [v] } vsid = [v] := by
    unfold getVideoTrackIds tracksOfKind
    dsimp only
    rw [alLookup_alInsert_self]
    simp [htrk, h4]
  simp [toggleCameraTS, h1, h2, h3, hhead]

/-!
Claim C4.  The TS-variant toggles: when the local stream exists but lacks the
relevant track kind and the corresponding flag is off, the toggle consumes an
audio-only (resp. video-only) acquisition; on success the acquired track is
added to the existing local stream via addTrack, with the existing tracks left
in place, unstopped and untouched; on an acquisition failure the catch block
leaves the state unchanged.
-/

/-- C4: toggleMic on a stream without audio tracks adds the acquired audio
track to the existing local stream without removing or stopping the existing
tracks; symmetrically for toggleCamera without video tracks. -/
theorem c4_toggle_adds_missing_track :
    (∀ (s : HookState) (sid asid : StreamId) (oldIds : List TrackId) (a : TrackId)
        (atr : Track),
      s.localStream = some sid →
      getAudioTrackIds s sid = [] →
      s.isMicOn = false →
      atr.kind = TrackKind.audio →
      alLookup s.trackDefs a = none →
      alLookup s.streamDefs sid = some oldIds →
      a ∉ oldIds →
      asid ≠ sid →
      (toggleMicTS (.ok (asid, [(a, atr)])) s).localStream = some sid ∧
      alLookup (toggleMicTS (.ok (asid, [(a, atr)])) s).streamDefs sid =
        some (oldIds ++ [a]) ∧
      (∀ tid ∈ oldIds, alLookup (toggleMicTS (.ok (asid, [(a, atr)])) s).trackDefs tid =
        alLookup s.trackDefs tid) ∧
      (toggleMicTS (.ok (asid, [(a, atr)])) s).isMicOn = true ∧
      (∀ p ∈ (toggleMicTS (.ok (asid, [(a, atr)])) s).participants, p.isCurrentUser = true →
        p.audioEnabled = true ∧ p.stream = some sid) ∧
      (∀ err, toggleMicTS (.error err) s = s)) ∧
    (∀ (s : HookState) (sid vsid : StreamId) (oldIds : List TrackId) (v : TrackId)
        (vtr : Track),
      s.localStream = some sid →
      getVideoTrackIds s sid = [] →
      s.isCameraOn = false →
      vtr.kind = TrackKind.video →
      alLookup s.trackDefs v = none →
      alLookup s.streamDefs sid = some oldIds →
      v ∉ oldIds →
      vsid ≠ sid →
      (toggleCameraTS (.ok (vsid, [(v, vtr)])) s).localStream = some sid ∧
      alLookup (toggleCameraTS (.ok (vsid, [(v, vtr)])) s).streamDefs sid =
        some (oldIds ++ [v]) ∧
      (∀ tid ∈ oldIds, alLookup (toggleCameraTS (.ok (vsid, [(v, vtr)])) s).trackDefs tid =
        alLookup s.trackDefs tid) ∧
      (toggleCameraTS (.ok (vsid, [(v, vtr)])) s).isCameraOn = true ∧
      (∀ p ∈ (toggleCameraTS (.ok (vsid, [(v, vtr)])) s).participants, p.isCurrentUser = true →
        p.videoEnabled = true ∧ p.stream = some sid) ∧
      (∀ err, toggleCameraTS (.error err) s = s)) := by
  constructor
  · intro s sid asid oldIds a atr h1 h2 h3 h4 h5 h6 h7 h8
    have e := toggleMicTS_add_eq s sid asid a atr h1 h2 h3 h4 h5
    have hsd : addTrackToStream (alInsert s.streamDefs asid [a]) sid a =
        alInsert (alInsert s.streamDefs asid [a]) sid (oldIds ++ [a]) := by
      unfold addTrackToStream
      rw [alLookup_alInsert_ne _ _ _ _ h8, h6]
      simp [h7]
    refine ⟨?_, ?_, ?_, ?_, ?_, ?_⟩
    · rw [e]; exact h1
    · rw [e]
      dsimp only
      rw [hsd, alLookup_alInsert_self]
    · intro tid htid
      rw [e]
      dsimp only
      have h9 : tid ≠ a := fun hc => h7 (hc ▸ htid)
      have h10 : alLookup [(a, atr)] tid = none := by
        have h11 : ¬(a = tid) := fun hc => h9 hc.symm
        simp [alLookup, h11]
      rw [alLookup_append_of_right_none _ _ _ h10]
    · rw [e]
    · intro p hp hcur
      rw [e] at hp
      dsimp only at hp
      rcases mem_mapCurrentUser _ _ p hp with ⟨q, _, _, hpq⟩ | ⟨_, hpc⟩
      · subst hpq; exact ⟨rfl, rfl⟩
      · rw [hcur] at hpc; exact absurd hpc (by simp)
    · intro err
      simp [toggleMicTS, h1, h2, h3]
  · intro s sid vsid oldIds v vtr h1 h2 h3 h4 h5 h6 h7 h8
    have e := toggleCameraTS_add_eq s sid vsid v vtr h1 h2 h3 h4 h5
    have hsd : addTrackToStream (alInsert s.streamDefs vsid [v]) sid v =
        alInsert (alInsert s.streamDefs vsid [v]) sid (oldIds ++ [v]) := by
      unfold addTrackToStream
      rw [alLookup_alInsert_ne _ _ _ _ h8, h6]
      simp [h7]
    refine ⟨?_, ?_, ?_, ?_, ?_, ?_⟩
    · rw [e]; exact h1
    · rw [e]
      dsimp only
      rw [hsd, alLookup_alInsert_self]
    · intro tid htid
      rw [e]
      dsimp only
      have h9 : tid ≠ v := fun hc => h7 (hc ▸ htid)
      have h10 : alLookup [(v, vtr)] tid = none := by
        have h11 : ¬(v = tid) := fun hc => h9 hc.symm
        simp [alLookup, h11]
      rw [alLookup_append_of_right_none _ _ _ h10]
    · rw [e]
    · intro p hp hcur
      rw [e] at hp
      dsimp only at hp
      rcases mem_mapCurrentUser _ _ p hp with ⟨q, _, _, hpq⟩ | ⟨_, hpc⟩
      · subst hpq; exact ⟨rfl, rfl⟩
      · rw [hcur] at hpc; exact absurd hpc (by simp)
    · intro err
      simp [toggleCameraTS, h1, h2, h3]

/-- Witness for C4 at a concrete video-only state: enabling the mic through
toggleMicTS raises the flag after acquiring and adding an audio track. -/
theorem c4_toggle_adds_missing_track_witness :
    (toggleMicTS (.ok (3, [(9, { kind := .audio, enabled := true, stopped := false })]))
        videoOnlyState).isMicOn = true :=
  (c4_toggle_adds_missing_track.1 videoOnlyState 0 3 [1] 9
    { kind := .audio, enabled := true, stopped := false }
    rfl (by decide) rfl rfl (by decide) (by decide) (by decide) (by decide)).2.2.2.1

/-!
Claim C5.  The unique-local-participant invariant over the operation alphabet.
-/

theorem localCount_cons (p : Participant) (t : List Participant) :
    localCount (p :: t) = (if p.isCurrentUser = true then 1 else 0) + localCount t := by
  unfold localCount
  rw [List.filter_cons]
  by_cases hc : p.isCurrentUser = true
  · simp [hc, Nat.add_comm]
  · simp [hc]

theorem localCount_map (ps : List Participant) (g : Participant → Participant)
    (hg : ∀ p, (g p).isCurrentUser = p.isCurrentUser) :
    localCount (ps.map g) = localCount ps := by
  induction ps with
  | nil => rfl
  | cons p t ih =>
    rw [List.map_cons, localCount_cons, localCount_cons, hg p, ih]

theorem goodLocalList_map (u : String) (ps : List Participant)
    (g : Participant → Participant)
    (hg : ∀ p, (g p).isCurrentUser = p.isCurrentUser ∧ (g p).id = p.id)
    (h : goodLocalList u ps) : goodLocalList u (ps.map g) := by
  constructor
  · rw [localCount_map ps g fun p => (hg p).1]
    exact h.1
  · intro p hp hc
    obtain ⟨q, hq, hpq⟩ := List.mem_map.mp hp
    subst hpq
    rw [(hg q).2]
    exact h.2 q hq (by rw [← (hg q).1]; exact hc)

theorem goodLocalList_mapCurrentUser (u : String) (ps : List Participant)
    (f : Participant → Participant)
    (hf : ∀ p, (f p).isCurrentUser = p.isCurrentUser ∧ (f p).id = p.id)
    (h : goodLocalList u ps) : goodLocalList u (mapCurrentUser ps f) := by
  unfold mapCurrentUser
  apply goodLocalList_map u ps _ _ h
  intro p
  by_cases hc : p.isCurrentUser = true <;> simp [hc, hf p]

theorem localCount_filter_ne (u pid : String) (ps : List Participant)
    (hne : pid ≠ u) (hids : ∀ p ∈ ps, p.isCurrentUser = true → p.id = u) :
    localCount (ps.filter fun p => decide (p.id ≠ pid)) = localCount ps := by
  induction ps with
  | nil => rfl
  | cons p t ih =>
    have hids2 : ∀ q ∈ t, q.isCurrentUser = true → q.id = u :=
      fun q hq => hids q (List.mem_cons_of_mem _ hq)
    rw [List.filter_cons]
    by_cases hk : decide (p.id ≠ pid) = true
    · rw [if_pos hk, localCount_cons, localCount_cons, ih hids2]
    · have hflag : ¬(p.isCurrentUser = true) := by
        intro hc
        have hid := hids p (List.mem_cons_self _ _) hc
        have hpp : p.id = pid := by simpa using hk
        exact hne (by rw [← hpp]; exact hid)
      rw [if_neg hk, localCount_cons, if_neg hflag, Nat.zero_add]
      exact ih hids2

theorem goodLocalList_filter_ne (u pid : String) (ps : List Participant)
    (hne : pid ≠ u) (h : goodLocalList u ps) :
    goodLocalList u (ps.filter fun p => decide (p.id ≠ pid)) := by
  constructor
  · rw [localCount_filter_ne u pid ps hne h.2]
    exact h.1
  · intro p hp hc
    exact h.2 p (List.mem_filter.mp hp).1 hc

theorem goodLocalList_append_noncurrent (u : String) (ps : List Participant)
    (q : Participant) (hq : q.isCurrentUser = false) (h : goodLocalList u ps) :
    goodLocalList u (ps ++ [q]) := by
  constructor
  · unfold localCount
    rw [List.filter_append]
    have h3 : List.filter (fun p => p.isCurrentUser) [q] = [] := by
      simp [List.filter, hq]
    rw [h3, List.append_nil]
    exact h.1
  · intro p hp hc
    rcases List.mem_append.mp hp with h2 | h2
    · exact h.2 p h2 hc
    · have : p = q := by simpa using h2
      subst this
      rw [hq] at hc
      exact absurd hc (by simp)

theorem initLocalStream_goodLocal (userId userName : String) (ia iv : Bool)
    (sid : StreamId) (base : HookState) :
    goodLocalList userId (initLocalStream userId userName ia iv sid base).participants := by
  constructor
  · rfl
  · intro p hp hc
    unfold initLocalStream at hp
    dsimp only at hp
    have hpq := List.mem_singleton.mp hp
    rw [hpq]

theorem hookStep_preserves_goodLocal (userId : String) (op : HookOp) (s : HookState)
    (hop : opTargetsLocal userId op = false)
    (h : goodLocalList userId s.participants) :
    goodLocalList userId (hookStep userId op s).participants := by
  cases op with
  | opToggleMic =>
    show goodLocalList userId (toggleMic s).participants
    unfold toggleMic
    split
    · exact h
    · dsimp only
      split
      · exact h
      · exact goodLocalList_mapCurrentUser _ _ _ (fun p => ⟨rfl, rfl⟩) h
  | opToggleCamera =>
    show goodLocalList userId (toggleCamera s).participants
    unfold toggleCamera
    split
    · exact h
    · dsimp only
      split
      · exact h
      · exact goodLocalList_mapCurrentUser _ _ _ (fun p => ⟨rfl, rfl⟩) h
  | opToggleScreenShare d =>
    show goodLocalList userId (toggleScreenShare d s).participants
    unfold toggleScreenShare
    split
    · cases hscr : s.screenStream with
      | none =>
        dsimp only
        cases hls : s.localStream with
        | none =>
          dsimp only
          exact h
        | some cam =>
          dsimp only
          exact goodLocalList_mapCurrentUser _ _ _ (fun p => ⟨rfl, rfl⟩) h
      | some scr =>
        dsimp only
        cases hls : s.localStream with
        | none =>
          dsimp only
          exact h
        | some cam =>
          dsimp only
          exact goodLocalList_mapCurrentUser _ _ _ (fun p => ⟨rfl, rfl⟩) h
    · split
      · exact h
      · exact goodLocalList_mapCurrentUser _ _ _ (fun p => ⟨rfl, rfl⟩) h
  | opRemoveParticipant pid =>
    have hne : pid ≠ userId := by simpa [opTargetsLocal] using hop
    show goodLocalList userId (removeParticipant pid s).participants
    unfold removeParticipant
    dsimp only
    split <;> exact goodLocalList_filter_ne userId pid s.participants hne h
  | opPeerStream pid sid =>
    show goodLocalList userId (peerStreamHandler pid sid s).participants
    unfold peerStreamHandler
    dsimp only
    split
    · apply goodLocalList_map _ _ _ _ h
      intro p
      by_cases hc : p.id = pid <;> simp [hc]
    · exact goodLocalList_append_noncurrent _ _ _ rfl h
  | opPeerClose pid =>
    have hne : pid ≠ userId := by simpa [opTargetsLocal] using hop
    exact goodLocalList_filter_ne userId pid s.participants hne h
  | opPeerError pid =>
    have hne : pid ≠ userId := by simpa [opTargetsLocal] using hop
    exact goodLocalList_filter_ne userId pid s.participants hne h
  | opSignal m =>
    show goodLocalList userId (handleSignals userId m s).participants
    cases m with
    | removeParticipantMsg sid2 rid =>
      unfold handleSignals
      dsimp only
      split
      · exact h
      · exact h
    | audioState sid2 b =>
      unfold handleSignals
      dsimp only
      apply goodLocalList_map _ _ _ _ h
      intro p
      by_cases hc : p.id = sid2 <;> simp [hc]
    | videoState sid2 b =>
      unfold handleSignals
      dsimp only
      apply goodLocalList_map _ _ _ _ h
      intro p
      by_cases hc : p.id = sid2 <;> simp [hc]
    | screenShareState sid2 b =>
      unfold handleSignals
      dsimp only
      apply goodLocalList_map _ _ _ _ h
      intro p
      by_cases hc : p.id = sid2 <;> simp [hc]
    | nameUpdate sid2 n =>
      unfold handleSignals
      dsimp only
      apply goodLocalList_map _ _ _ _ h
      intro p
      by_cases hc : p.id = sid2 <;> simp [hc]
    | ping sid2 => exact h

theorem foldl_hookStep_goodLocal (userId : String) (ops : List HookOp) (s : HookState)
    (hops : ∀ op ∈ ops, opTargetsLocal userId op = false)
    (h : goodLocalList userId s.participants) :
    goodLocalList userId
      ((ops.foldl (fun st op => hookStep userId op st) s).participants) := by
  induction ops generalizing s with
  | nil => exact h
  | cons op t ih =>
    exact ih (hookStep userId op s) (fun o ho => hops o (List.mem_cons_of_mem _ ho))
      (hookStep_preserves_goodLocal userId op s (hops op (List.mem_cons_self _ _)) h)

/-- C5 counterexample: removeParticipant called with the id of the local
participant removes the unique current-user entry, so the invariant fails on
the reachable sequence init then removeParticipant(own id). -/
theorem c5_counterexample_remove_self :
    localCount (([HookOp.opRemoveParticipant "alice"].foldl
      (fun st op => hookStep "alice" op st)
      (initLocalStream "alice" "Alice" true true 0 emptyHookState)).participants) = 0 := by
  decide

/-- C5 as amended: after a successful initialization, any sequence of the
exposed operations and events in which no removal-type operation carries the
local user id (the code attaches peer handlers only to remote ids, so this
only excludes removeParticipant called with the own id) keeps exactly one
participant entry with isCurrentUser = true. -/
theorem c5_amended_unique_local (userId userName : String) (ia iv : Bool)
    (sid : StreamId) (base : HookState) (ops : List HookOp)
    (hops : ∀ op ∈ ops, opTargetsLocal userId op = false) :
    localCount ((ops.foldl (fun st op => hookStep userId op st)
      (initLocalStream userId userName ia iv sid base)).participants) = 1 :=
  (foldl_hookStep_goodLocal userId ops _ hops
    (initLocalStream_goodLocal userId userName ia iv sid base)).1

/-- Witness for the amended C5 on a concrete mixed operation sequence. -/
theorem c5_amended_unique_local_witness :
    localCount (([HookOp.opToggleMic, HookOp.opPeerStream "bob" 5,
        HookOp.opRemoveParticipant "bob",
        HookOp.opSignal (.audioState "bob" false)].foldl
      (fun st op => hookStep "alice" op st)
      (initLocalStream "alice" "Alice" true true 0 emptyHookState)).participants) = 1 :=
  c5_amended_unique_local "alice" "Alice" true true 0 emptyHookState _ (by decide)

/-!
Claims C2 and C9.  Properties of the getMediaStream fallback recursion.
-/

theorem guardedCalls_append (l1 l2 : List MEvent) :
    guardedCalls (l1 ++ l2) = guardedCalls l1 + guardedCalls l2 := by
  unfold guardedCalls
  rw [List.filter_append, List.length_append]

theorem guardedCalls_nil : guardedCalls [] = 0 := rfl

theorem guardedCalls_cons_call (r : Nat) (l : List MEvent) :
    guardedCalls (MEvent.guardedCall r :: l) = guardedCalls l + 1 := by
  unfold guardedCalls
  rw [List.filter_cons]
  simp

theorem guardedCalls_cons_attempt (t : AttemptTag) (l : List MEvent) :
    guardedCalls (MEvent.attempt t :: l) = guardedCalls l := by
  unfold guardedCalls
  rw [List.filter_cons]
  simp

/-- Every invocation chain makes at most 4 - retryAttempt guarded calls, the
retryAttempt counter strictly increasing along the recursion. -/
theorem getMediaStream_guardedCalls_le (env : AttemptTag → Except ErrName Nat)
    (a v : Bool) (r : Nat) :
    guardedCalls (getMediaStream env a v r).1 ≤ 4 - r := by
  by_cases hg : r > 3
  · unfold getMediaStream
    rw [dif_pos hg]
    simp [guardedCalls]
  · have hrecA := getMediaStream_guardedCalls_le env true false (r + 1)
    have hrecV := getMediaStream_guardedCalls_le env false true (r + 1)
    unfold getMediaStream
    rw [dif_neg hg]
    repeat' split
    all_goals simp [guardedCalls_append, guardedCalls_nil, guardedCalls_cons_call,
      guardedCalls_cons_attempt]
    all_goals omega
termination_by 4 - r
decreasing_by all_goals omega

/-- C9: the recursion makes at most 4 acquisition-attempting invocations
(invocations that pass the retry guard), and a call entered with retryAttempt
greater than 3 raises the max-retry failure without attempting acquisition
(empty trace).  The strict increase of retryAttempt on every recursive call is
what lets the definition itself be accepted with measure 4 - retryAttempt. -/
theorem c9_retry_cap (env : AttemptTag → Except ErrName Nat) (a v : Bool) (r : Nat) :
    guardedCalls (getMediaStream env a v r).1 ≤ 4 ∧
    (r > 3 → getMediaStream env a v r = ([], .error (.appError maxRetryMsg))) := by
  constructor
  · exact le_trans (getMediaStream_guardedCalls_le env a v r) (Nat.sub_le 4 r)
  · intro hg
    unfold getMediaStream
    rw [dif_pos hg]

/-- Witness for C9: a run from retry 0 and a call entered beyond the cap. -/
theorem c9_retry_cap_witness :
    guardedCalls (getMediaStream envAllBusy false false 0).1 ≤ 4 ∧
    getMediaStream envAllBusy false false 4 = ([], .error (.appError maxRetryMsg)) :=
  ⟨(c9_retry_cap envAllBusy false false 0).1,
    (c9_retry_cap envAllBusy false false 4).2 (by decide)⟩

/-- In a run where every acquisition fails with a DeviceBusy or
OverConstrained error, the video-only tier is never attempted: the recursion
stays in the combined and audio-only modes. -/
theorem getMediaStream_busy_no_video (env : AttemptTag → Except ErrName Nat)
    (henv : ∀ t, ∃ e, env t = .error e ∧ busyOrOverconstrained e)
    (a : Bool) (r : Nat) :
    MEvent.attempt .videoOnly ∉ (getMediaStream env a false r).1 := by
  by_cases hg : r > 3
  · unfold getMediaStream
    rw [dif_pos hg]
    simp
  · cases a with
    | false =>
      obtain ⟨e1, he1, _⟩ := henv .basicAV
      obtain ⟨e2, he2, _⟩ := henv .detailedAV
      have hrec := getMediaStream_busy_no_video env henv true (r + 1)
      unfold getMediaStream
      rw [dif_neg hg, he1, he2]
      simp [hrec]
    | true =>
      obtain ⟨e, he, hb⟩ := henv .audioOnly
      obtain ⟨e4, he4, _⟩ := henv .lowQualityAV
      have hrec := getMediaStream_busy_no_video env henv true (r + 1)
      unfold getMediaStream
      rw [dif_neg hg, he]
      rcases hb with rfl | rfl | rfl
      · simp
      · simp
      · simp [he4, hrec]
termination_by 4 - r
decreasing_by all_goals omega

/-- In a run where every acquisition fails with a DeviceBusy or
OverConstrained error, the result is a raised failure. -/
theorem getMediaStream_busy_error (env : AttemptTag → Except ErrName Nat)
    (henv : ∀ t, ∃ e, env t = .error e ∧ busyOrOverconstrained e)
    (a : Bool) (r : Nat) :
    ∃ msg, (getMediaStream env a false r).2 = .error msg := by
  by_cases hg : r > 3
  · exact ⟨.appError maxRetryMsg, by unfold getMediaStream; rw [dif_pos hg]⟩
  · cases a with
    | false =>
      obtain ⟨e1, he1, _⟩ := henv .basicAV
      obtain ⟨e2, he2, _⟩ := henv .detailedAV
      obtain ⟨msg, hmsg⟩ := getMediaStream_busy_error env henv true (r + 1)
      refine ⟨msg, ?_⟩
      unfold getMediaStream
      rw [dif_neg hg, he1, he2]
      simpa using hmsg
    | true =>
      obtain ⟨e, he, hb⟩ := henv .audioOnly
      rcases hb with rfl | rfl | rfl
      · exact ⟨.appError deviceBusyMsg, by unfold getMediaStream; rw [dif_neg hg, he]; simp⟩
      · exact ⟨.appError deviceBusyMsg, by unfold getMediaStream; rw [dif_neg hg, he]; simp⟩
      · obtain ⟨e4, he4, _⟩ := henv .lowQualityAV
        obtain ⟨msg, hmsg⟩ := getMediaStream_busy_error env henv true (r + 1)
        refine ⟨msg, ?_⟩
        unfold getMediaStream
        rw [dif_neg hg, he]
        simp [he4, hmsg]
termination_by 4 - r
decreasing_by all_goals omega

/-!
Claim C2.  The claim lists four fallback tiers ending in video-only.  The
cited getMediaStream never reaches the video-only tier on DeviceBusy or
OverConstrained failures: in audio-only mode a busy error is rethrown as the
final failure and an overconstrained error loops between the low-quality
combined retry and audio-only until the cap; video-only is reached only
through the generic branch for other error kinds.
-/

/-- C2 counterexample: with every attempt failing busy (NotReadableError), the
run makes exactly the attempts basic, detailed, audio-only and raises the
device-busy failure; the video-only tier is never attempted, contrary to the
claim. -/
theorem c2_counterexample_busy_run_skips_video_only :
    getMediaStream envAllBusy false false 0 =
      ([.guardedCall 0, .attempt .basicAV, .attempt .detailedAV,
        .guardedCall 1, .attempt .audioOnly], .error (.appError deviceBusyMsg)) ∧
    MEvent.attempt .videoOnly ∉ (getMediaStream envAllBusy false false 0).1 := by
  have hrun : getMediaStream envAllBusy false false 0 =
      ([.guardedCall 0, .attempt .basicAV, .attempt .detailedAV,
        .guardedCall 1, .attempt .audioOnly], .error (.appError deviceBusyMsg)) := by
    simp [getMediaStream, envAllBusy]
  refine ⟨hrun, ?_⟩
  rw [hrun]
  decide

/-- C2 as amended: in every run in which each attempt fails with a DeviceBusy
or OverConstrained error, getMediaStream attempts the combined nominal tier,
the combined reduced tier, and the audio-only tier, in this order, before
raising a final failure to the caller; the video-only tier is never attempted
in such runs. -/
theorem c2_amended_busy_over_runs (env : AttemptTag → Except ErrName Nat)
    (henv : ∀ t, ∃ e, env t = .error e ∧ busyOrOverconstrained e) :
    (∃ msg, (getMediaStream env false false 0).2 = .error msg) ∧
    (∃ rest, (getMediaStream env false false 0).1 =
      [.guardedCall 0, .attempt .basicAV, .attempt .detailedAV,
       .guardedCall 1, .attempt .audioOnly] ++ rest) ∧
    MEvent.attempt .videoOnly ∉ (getMediaStream env false false 0).1 := by
  refine ⟨getMediaStream_busy_error env henv false 0, ?_,
    getMediaStream_busy_no_video env henv false 0⟩
  obtain ⟨e1, he1, _⟩ := henv .basicAV
  obtain ⟨e2, he2, _⟩ := henv .detailedAV
  obtain ⟨e3, he3, hb3⟩ := henv .audioOnly
  have houter : (getMediaStream env false false 0).1 =
      [.guardedCall 0, .attempt .basicAV, .attempt .detailedAV] ++
        (getMediaStream env true false 1).1 := by
    conv_lhs => unfold getMediaStream
    rw [he1, he2]
    simp
  have hinner : ∃ rest2, (getMediaStream env true false 1).1 =
      [.guardedCall 1, .attempt .audioOnly] ++ rest2 := by
    unfold getMediaStream
    rw [he3]
    rcases hb3 with rfl | rfl | rfl
    · exact ⟨[], by simp⟩
    · exact ⟨[], by simp⟩
    · obtain ⟨e4, he4, _⟩ := henv .lowQualityAV
      refine ⟨[MEvent.attempt .lowQualityAV] ++ (getMediaStream env true false 2).1, ?_⟩
      simp [he4]
  obtain ⟨rest2, hrest2⟩ := hinner
  refine ⟨rest2, ?_⟩
  rw [houter, hrest2]
  simp

/-- Witness for the amended C2 at the all-busy environment. -/
theorem c2_amended_busy_over_runs_witness :
    MEvent.attempt .videoOnly ∉ (getMediaStream envAllBusy false false 0).1 :=
  (c2_amended_busy_over_runs envAllBusy
    (fun _ => ⟨.notReadable, rfl, Or.inl rfl⟩)).2.2
